import Mathlib

/-!
Verification of the room-lifecycle / event-routing core of the backendChat
server (`src/server.js`, with the strict variant `src/unnamed/part_001`).

The embedding mirrors the Socket.IO runtime state the handlers observe:
  * `connected`   — the set of live socket ids (`io.sockets.sockets` keys);
  * `username`    — `socket.data.username` per socket (`none` = undefined);
  * `adapter`     — `io.sockets.adapter.rooms`: room id → member socket ids
                    (an absent entry is modelled as the empty set);
  * `roomsOf`     — `socket.rooms` per socket, in insertion order (a JS Set);
  * `activeRooms` — the in-memory Room Directory `activeRooms` of server.js,
                    room id → stored room type string.

On connect, Socket.IO places each socket in a pseudo-room named by its own
socket id; `disconnecting` fires while `socket.rooms` is still populated and
the transport then removes the socket from every room.  Socket ids are
server-generated and collision-resistant, so the `connect` transition
requires the new id to be unused anywhere in the state.
-/

namespace BackendChat

/-- Socket identifiers (opaque strings assigned by the transport). -/
abbrev Sid := String

/-- The server state observed by the event handlers (see module docstring). -/
structure SState where
  connected : Finset Sid
  username : Sid → Option String
  adapter : String → Finset Sid
  roomsOf : Sid → List String
  activeRooms : String → Option String

/-- Outbound event payloads of server.js (one constructor per `emit` shape). -/
inductive Payload where
  | userJoined (username : String)
  | joinSuccess (roomId : String)
  | roomTypeMismatch (existingType attemptedType : String)
  | roomFull
  | roomNotFound
  | chatMessage (message messageId : String) (senderId : Sid) (senderName : Option String)
  | readReceipt (messageId : String)
  | typing (senderName : Option String) (isTyping : Bool)
  | userLeft (username : Option String)
  | fileShared (filename originalname mimetype : String) (size : Nat) (path : String)
      (senderId : Sid) (senderName : Option String) (tempId : Option String)
deriving DecidableEq

/-- One outbound emission: the set of receiving sockets and the payload.
`socket.emit e` has recipients `{socket.id}`, `socket.to(r).emit e` has the
members of `r` minus the sender, `io.to(r).emit e` has all members of `r`. -/
structure Emit where
  recipients : Finset Sid
  payload : Payload
deriving DecidableEq

/-- `socket.data.username = username` (server.js line 101). -/
def setUsername (s : SState) (sid : Sid) (u : String) : SState :=
  { s with username := fun x => if x = sid then some u else s.username x }

/-- `socket.join(roomId)`: add the socket to the adapter room and the room id
to the socket's room set (Set semantics: append only if absent). -/
def socketJoin (s : SState) (sid : Sid) (roomId : String) : SState :=
  { s with
    adapter := fun x => if x = roomId then insert sid (s.adapter x) else s.adapter x,
    roomsOf := fun c =>
      if c = sid then
        (if roomId ∈ s.roomsOf sid then s.roomsOf sid else s.roomsOf sid ++ [roomId])
      else s.roomsOf c }

/-- The shared tail of the join handler (server.js lines 100-104): set the
username, join the room, emit `user-joined` to the (post-join) room minus the
joiner, and `join-success` to the joiner alone. -/
def joinProceed (s : SState) (sid : Sid) (roomId u : String) : SState × List Emit :=
  let s1 := socketJoin (setUsername s sid u) sid roomId
  (s1, [⟨(s1.adapter roomId).erase sid, Payload.userJoined u⟩,
        ⟨{sid}, Payload.joinSuccess roomId⟩])

/-- The `join-room` handler of server.js (lines 76-105).  If the room is
registered: reject on type mismatch, then reject a private room with
`room.size >= 2` (a missing adapter entry is the empty room, so the JS guard
`room && room.size >= 2` is exactly `2 ≤ card`).  Otherwise register the room
with the requested type.  All remaining cases proceed to the join tail. -/
def joinRoom (s : SState) (sid : Sid) (roomId username roomType : String) :
    SState × List Emit :=
  match s.activeRooms roomId with
  | some existingType =>
    if existingType ≠ roomType then
      (s, [⟨{sid}, Payload.roomTypeMismatch existingType roomType⟩])
    else if existingType = "private" ∧ 2 ≤ (s.adapter roomId).card then
      (s, [⟨{sid}, Payload.roomFull⟩])
    else
      joinProceed s sid roomId username
  | none =>
    joinProceed
      { s with activeRooms := fun x => if x = roomId then some roomType else s.activeRooms x }
      sid roomId username

/-- The strict-variant `join-room` handler of src/unnamed/part_001 (lines
96-116): an unregistered room is rejected with `room-not-found` instead of
being created; no room type is supplied by the client. -/
def joinRoomStrict (s : SState) (sid : Sid) (roomId username : String) :
    SState × List Emit :=
  match s.activeRooms roomId with
  | none => (s, [⟨{sid}, Payload.roomNotFound⟩])
  | some t =>
    if t = "private" ∧ 2 ≤ (s.adapter roomId).card then
      (s, [⟨{sid}, Payload.roomFull⟩])
    else
      joinProceed s sid roomId username

/-- The `chat-message` handler (server.js lines 108-114): relay to the room
minus the sender, stamped with the sender's id and current username. -/
def chatMessage (s : SState) (sid : Sid) (roomId message messageId : String) :
    SState × List Emit :=
  (s, [⟨(s.adapter roomId).erase sid,
        Payload.chatMessage message messageId sid (s.username sid)⟩])

/-- The `message-seen` handler (server.js lines 116-118): relay a
`read-receipt` carrying only the message id to the room minus the sender. -/
def messageSeen (s : SState) (sid : Sid) (roomId messageId : String) :
    SState × List Emit :=
  (s, [⟨(s.adapter roomId).erase sid, Payload.readReceipt messageId⟩])

/-- The `typing` handler (server.js lines 120-122). -/
def onTyping (s : SState) (sid : Sid) (roomId : String) (isTyping : Bool) :
    SState × List Emit :=
  (s, [⟨(s.adapter roomId).erase sid, Payload.typing (s.username sid) isTyping⟩])

/-- One iteration of the `disconnecting` loop body (server.js lines 126-135):
skip the pseudo-room `room === socket.id`; otherwise emit `user-left` to the
room minus the leaver, then delete the Directory entry when the pre-leave
adapter size is exactly 1. -/
def discStep (sid : Sid) (acc : SState × List Emit) (room : String) :
    SState × List Emit :=
  if room ≠ sid then
    let ems := acc.2 ++ [⟨(acc.1.adapter room).erase sid,
                          Payload.userLeft (acc.1.username sid)⟩]
    if (acc.1.adapter room).card = 1 then
      ({ acc.1 with activeRooms := fun x => if x = room then none else acc.1.activeRooms x },
       ems)
    else
      (acc.1, ems)
  else acc

/-- The `disconnecting` handler (server.js lines 124-136): fold the loop body
over `socket.rooms`; the adapter is not modified by the handler itself. -/
def disconnecting (s : SState) (sid : Sid) : SState × List Emit :=
  (s.roomsOf sid).foldl (discStep sid) (s, [])

/-- A full disconnect: run the `disconnecting` handler, then the transport
removes the socket from every room, clears its session data and drops it from
the connection registry. -/
def disconnect (s : SState) (sid : Sid) : SState × List Emit :=
  let res := disconnecting s sid
  ({ connected := res.1.connected.erase sid,
     username := fun c => if c = sid then none else res.1.username c,
     adapter := fun rm => (res.1.adapter rm).erase sid,
     roomsOf := fun c => if c = sid then [] else res.1.roomsOf c,
     activeRooms := res.1.activeRooms }, res.2)

/-- A transport-level connect: the socket is registered and placed in the
pseudo-room named by its own id. -/
def connect (s : SState) (sid : Sid) : SState :=
  socketJoin { s with connected := insert sid s.connected } sid sid

/-- The stored-blob descriptor assembled by `POST /upload` (server.js lines
43-49). -/
structure FileData where
  filename : String
  originalname : String
  mimetype : String
  size : Nat
  path : String
deriving DecidableEq

/-- The notification step of `POST /upload` (server.js lines 51-56): when a
room id is supplied, resolve the sender's display name (the connection's
current username if it is still present, the placeholder string otherwise)
and emit `file-shared` to the whole room via `io.to(roomId)`. -/
def uploadNotify (s : SState) (fd : FileData) (roomId : Option String)
    (senderId : Sid) (tempId : Option String) : List Emit :=
  match roomId with
  | none => []
  | some rid =>
    let senderName : Option String :=
      if senderId ∈ s.connected then s.username senderId else some "A user"
    [⟨s.adapter rid,
      Payload.fileShared fd.filename fd.originalname fd.mimetype fd.size fd.path
        senderId senderName tempId⟩]

/-- Inbound client events driving the reachable-state transition system. -/
inductive Ev where
  | conn (sid : Sid)
  | join (sid roomId username roomType : String)
  | chat (sid roomId message messageId : String)
  | seen (sid roomId messageId : String)
  | typing (sid roomId : String) (isTyping : Bool)
  | disc (sid : Sid)

/-- A freshly assigned socket id: server-generated, collision-resistant, so it
occurs nowhere in the current state. -/
def freshFor (s : SState) (sid : Sid) : Prop :=
  sid ∉ s.connected ∧ s.adapter sid = ∅ ∧ s.roomsOf sid = [] ∧
    s.activeRooms sid = none ∧ s.username sid = none

instance instDecFreshFor (s : SState) (sid : Sid) : Decidable (freshFor s sid) := by
  unfold freshFor; infer_instance

/-- Apply one inbound event to the state (dropping the emissions); `none` when
the event's transport-level precondition fails (sender not connected, or a
connect with a non-fresh id). -/
def applyEv (s : SState) : Ev → Option SState
  | Ev.conn sid => if freshFor s sid then some (connect s sid) else none
  | Ev.join sid roomId u t =>
      if sid ∈ s.connected then some (joinRoom s sid roomId u t).1 else none
  | Ev.chat sid roomId m mid =>
      if sid ∈ s.connected then some (chatMessage s sid roomId m mid).1 else none
  | Ev.seen sid roomId mid =>
      if sid ∈ s.connected then some (messageSeen s sid roomId mid).1 else none
  | Ev.typing sid roomId b =>
      if sid ∈ s.connected then some (onTyping s sid roomId b).1 else none
  | Ev.disc sid =>
      if sid ∈ s.connected then some (disconnect s sid).1 else none

/-- The boot state: no connections, no rooms, empty Directory. -/
def init : SState :=
  ⟨∅, fun _ => none, fun _ => ∅, fun _ => [], fun _ => none⟩

/-- Run a sequence of inbound events from a state. -/
def runEvs : SState → List Ev → Option SState
  | s, [] => some s
  | s, e :: evs =>
    match applyEv s e with
    | none => none
    | some s1 => runEvs s1 evs

/-- The inductive state invariant: unregistered rooms hold at most their
pseudo-room owner; registered private rooms hold at most two members; a room
listed in a socket's room set contains that socket. -/
def Inv (s : SState) : Prop :=
  (∀ r, s.activeRooms r = none → s.adapter r ⊆ {r}) ∧
  (∀ r, s.activeRooms r = some "private" → (s.adapter r).card ≤ 2) ∧
  (∀ c r, r ∈ s.roomsOf c → c ∈ s.adapter r)

/-- Success precondition of the `join-room` handler: the room is unregistered,
or its registered type matches the request and a private room is not at
capacity. -/
def joinOk (s : SState) (roomId roomType : String) : Prop :=
  s.activeRooms roomId = none ∨
    (s.activeRooms roomId = some roomType ∧
      ¬(roomType = "private" ∧ 2 ≤ (s.adapter roomId).card))

instance instDecJoinOk (s : SState) (roomId roomType : String) :
    Decidable (joinOk s roomId roomType) := by
  unfold joinOk; infer_instance

/-- A state with one connection `"a"` (named alice) inside a registered
`group` room `"r"`. -/
def stGroup : SState :=
  ⟨{"a"},
   fun x => if x = "a" then some "alice" else none,
   fun x => if x = "r" then {"a"} else if x = "a" then {"a"} else ∅,
   fun c => if c = "a" then ["a", "r"] else [],
   fun x => if x = "r" then some "group" else none⟩

/-- A state with connections `"a"` and `"b"` filling a registered `private`
room `"r"`. -/
def stPriv2 : SState :=
  ⟨{"a", "b"},
   fun x => if x = "a" then some "alice" else if x = "b" then some "bob" else none,
   fun x => if x = "r" then {"a", "b"}
            else if x = "a" then {"a"} else if x = "b" then {"b"} else ∅,
   fun c => if c = "a" then ["a", "r"] else if c = "b" then ["b", "r"] else [],
   fun x => if x = "r" then some "private" else none⟩

/-- A state where `"a"` shares group room `"room1"` with `"b"` and is the
sole member of group room `"solo"`. -/
def stC6 : SState :=
  ⟨{"a", "b"},
   fun x => if x = "a" then some "alice" else if x = "b" then some "bob" else none,
   fun x => if x = "room1" then {"a", "b"}
            else if x = "solo" then {"a"}
            else if x = "a" then {"a"} else if x = "b" then {"b"} else ∅,
   fun c => if c = "a" then ["a", "room1", "solo"]
            else if c = "b" then ["b", "room1"] else [],
   fun x => if x = "room1" then some "group"
            else if x = "solo" then some "group" else none⟩

/-- A sample stored-blob descriptor. -/
def fdEx : FileData :=
  ⟨"1700-img.png", "img.png", "image/png", 5, "/uploads/1700-img.png"⟩

/-- Two connections join the same private room. -/
def evsC2 : List Ev :=
  [Ev.conn "a", Ev.join "a" "r1" "alice" "private",
   Ev.conn "b", Ev.join "b" "r1" "bob" "private"]

/-- A connection joins the pseudo-room named by its own socket id, then
disconnects. -/
def leakTrace : List Ev :=
  [Ev.conn "a", Ev.join "a" "a" "alice" "group", Ev.disc "a"]

theorem discStep_adapter (sid : Sid) (acc : SState × List Emit) (room : String) :
    (discStep sid acc room).1.adapter = acc.1.adapter := by
  unfold discStep; split_ifs <;> rfl

theorem discStep_username (sid : Sid) (acc : SState × List Emit) (room : String) :
    (discStep sid acc room).1.username = acc.1.username := by
  unfold discStep; split_ifs <;> rfl

theorem discStep_roomsOf (sid : Sid) (acc : SState × List Emit) (room : String) :
    (discStep sid acc room).1.roomsOf = acc.1.roomsOf := by
  unfold discStep; split_ifs <;> rfl

theorem discStep_connected (sid : Sid) (acc : SState × List Emit) (room : String) :
    (discStep sid acc room).1.connected = acc.1.connected := by
  unfold discStep; split_ifs <;> rfl

theorem discStep_active (sid : Sid) (acc : SState × List Emit) (room r : String) :
    (discStep sid acc room).1.activeRooms r =
      if r = room ∧ room ≠ sid ∧ (acc.1.adapter room).card = 1 then none
      else acc.1.activeRooms r := by
  unfold discStep
  by_cases h1 : room = sid
  · simp [h1]
  · by_cases h2 : (acc.1.adapter room).card = 1
    · by_cases h3 : r = room <;> simp [h1, h2, h3]
    · simp [h1, h2]

theorem discStep_emits (sid : Sid) (acc : SState × List Emit) (room : String) :
    (discStep sid acc room).2 =
      acc.2 ++ (if room ≠ sid then
        [⟨(acc.1.adapter room).erase sid, Payload.userLeft (acc.1.username sid)⟩]
      else []) := by
  unfold discStep
  by_cases h1 : room = sid
  · simp [h1]
  · by_cases h2 : (acc.1.adapter room).card = 1 <;> simp [h1, h2]

theorem foldl_disc_adapter (sid : Sid) (l : List String) (acc : SState × List Emit) :
    (l.foldl (discStep sid) acc).1.adapter = acc.1.adapter := by
  induction l generalizing acc with
  | nil => rfl
  | cons a l ih => rw [List.foldl_cons, ih, discStep_adapter]

theorem foldl_disc_username (sid : Sid) (l : List String) (acc : SState × List Emit) :
    (l.foldl (discStep sid) acc).1.username = acc.1.username := by
  induction l generalizing acc with
  | nil => rfl
  | cons a l ih => rw [List.foldl_cons, ih, discStep_username]

theorem foldl_disc_roomsOf (sid : Sid) (l : List String) (acc : SState × List Emit) :
    (l.foldl (discStep sid) acc).1.roomsOf = acc.1.roomsOf := by
  induction l generalizing acc with
  | nil => rfl
  | cons a l ih => rw [List.foldl_cons, ih, discStep_roomsOf]

theorem foldl_disc_connected (sid : Sid) (l : List String) (acc : SState × List Emit) :
    (l.foldl (discStep sid) acc).1.connected = acc.1.connected := by
  induction l generalizing acc with
  | nil => rfl
  | cons a l ih => rw [List.foldl_cons, ih, discStep_connected]

theorem foldl_disc_active (sid : Sid) (l : List String) (acc : SState × List Emit)
    (r : String) :
    (l.foldl (discStep sid) acc).1.activeRooms r =
      if r ∈ l ∧ r ≠ sid ∧ (acc.1.adapter r).card = 1 then none
      else acc.1.activeRooms r := by
  induction l generalizing acc with
  | nil => simp
  | cons a l ih =>
    rw [List.foldl_cons, ih, discStep_adapter, discStep_active]
    by_cases h1 : r ≠ sid
    · by_cases h2 : (acc.1.adapter r).card = 1
      · by_cases h3 : r ∈ l
        · simp [h1, h2, h3]
        · by_cases h4 : r = a
          · subst h4; simp [h1, h2, h3]
          · simp [h1, h2, h3, h4, List.mem_cons]
      · by_cases h4 : r = a
        · subst h4; simp [h1, h2]
        · simp [h2, h4, List.mem_cons]
    · have h1x : r = sid := not_not.mp (by simpa using h1)
      subst h1x
      by_cases h4 : r = a
      · subst h4; simp
      · simp [h4]

theorem foldl_disc_emits (sid : Sid) (l : List String) (acc : SState × List Emit) :
    (l.foldl (discStep sid) acc).2 =
      acc.2 ++ l.filterMap (fun room =>
        if room ≠ sid then
          some ⟨(acc.1.adapter room).erase sid, Payload.userLeft (acc.1.username sid)⟩
        else none) := by
  induction l generalizing acc with
  | nil => simp
  | cons a l ih =>
    rw [List.foldl_cons, ih, discStep_adapter, discStep_username, discStep_emits,
      List.filterMap_cons]
    by_cases h : a = sid
    · simp [h]
    · simp [h, List.append_assoc]

theorem disconnect_adapter (s : SState) (sid : Sid) (r : String) :
    (disconnect s sid).1.adapter r = (s.adapter r).erase sid := by
  show ((disconnecting s sid).1.adapter r).erase sid = (s.adapter r).erase sid
  rw [show (disconnecting s sid).1.adapter = s.adapter from foldl_disc_adapter sid _ _]

theorem disconnect_active (s : SState) (sid : Sid) (r : String) :
    (disconnect s sid).1.activeRooms r =
      if r ∈ s.roomsOf sid ∧ r ≠ sid ∧ (s.adapter r).card = 1 then none
      else s.activeRooms r := by
  show (disconnecting s sid).1.activeRooms r = _
  exact foldl_disc_active sid (s.roomsOf sid) (s, []) r

theorem disconnect_roomsOf (s : SState) (sid : Sid) (c : Sid) :
    (disconnect s sid).1.roomsOf c = if c = sid then [] else s.roomsOf c := by
  show (if c = sid then [] else (disconnecting s sid).1.roomsOf c) = _
  rw [show (disconnecting s sid).1.roomsOf = s.roomsOf from foldl_disc_roomsOf sid _ _]

theorem disconnect_username (s : SState) (sid : Sid) (c : Sid) :
    (disconnect s sid).1.username c = if c = sid then none else s.username c := by
  show (if c = sid then none else (disconnecting s sid).1.username c) = _
  rw [show (disconnecting s sid).1.username = s.username from foldl_disc_username sid _ _]

theorem disconnect_emits (s : SState) (sid : Sid) :
    (disconnect s sid).2 = (s.roomsOf sid).filterMap (fun room =>
      if room ≠ sid then
        some ⟨(s.adapter room).erase sid, Payload.userLeft (s.username sid)⟩
      else none) := by
  show (disconnecting s sid).2 = _
  rw [disconnecting, foldl_disc_emits]
  rfl

theorem joinProceed_emits (s : SState) (sid : Sid) (roomId u : String) :
    (joinProceed s sid roomId u).2 =
      [⟨(s.adapter roomId).erase sid, Payload.userJoined u⟩,
       ⟨{sid}, Payload.joinSuccess roomId⟩] := by
  unfold joinProceed socketJoin setUsername
  simp [Finset.erase_insert_eq_erase]

theorem joinProceed_active (s : SState) (sid : Sid) (roomId u x : String) :
    (joinProceed s sid roomId u).1.activeRooms x = s.activeRooms x := rfl

theorem joinProceed_adapter (s : SState) (sid : Sid) (roomId u x : String) :
    (joinProceed s sid roomId u).1.adapter x =
      if x = roomId then insert sid (s.adapter x) else s.adapter x := rfl

theorem joinProceed_roomsOf (s : SState) (sid : Sid) (roomId u : String) (c : Sid) :
    (joinProceed s sid roomId u).1.roomsOf c =
      if c = sid then
        (if roomId ∈ s.roomsOf sid then s.roomsOf sid else s.roomsOf sid ++ [roomId])
      else s.roomsOf c := rfl

theorem connect_adapter (s : SState) (sid : Sid) (x : String) :
    (connect s sid).adapter x =
      if x = sid then insert sid (s.adapter x) else s.adapter x := rfl

theorem connect_roomsOf (s : SState) (sid : Sid) (c : Sid) :
    (connect s sid).roomsOf c =
      if c = sid then
        (if sid ∈ s.roomsOf sid then s.roomsOf sid else s.roomsOf sid ++ [sid])
      else s.roomsOf c := rfl

theorem connect_activeRooms (s : SState) (sid : Sid) (x : String) :
    (connect s sid).activeRooms x = s.activeRooms x := rfl

theorem joinRoom_none (s : SState) (sid : Sid) (roomId u t : String)
    (hA : s.activeRooms roomId = none) :
    joinRoom s sid roomId u t =
      joinProceed
        { s with activeRooms := fun x => if x = roomId then some t else s.activeRooms x }
        sid roomId u := by
  unfold joinRoom; rw [hA]

theorem joinRoom_mismatch (s : SState) (sid : Sid) (roomId u t : String) (t0 : String)
    (hA : s.activeRooms roomId = some t0) (hne : t0 ≠ t) :
    joinRoom s sid roomId u t = (s, [⟨{sid}, Payload.roomTypeMismatch t0 t⟩]) := by
  unfold joinRoom; rw [hA]; exact if_pos hne

theorem joinRoom_fullCase (s : SState) (sid : Sid) (roomId u : String) (t0 : String)
    (hA : s.activeRooms roomId = some t0) (heq : t0 = "private")
    (hcard : 2 ≤ (s.adapter roomId).card) :
    joinRoom s sid roomId u "private" = (s, [⟨{sid}, Payload.roomFull⟩]) := by
  subst heq; simp [joinRoom, hA, hcard]

theorem joinRoom_proceed (s : SState) (sid : Sid) (roomId u t : String) (t0 : String)
    (hA : s.activeRooms roomId = some t0) (heq : t0 = t)
    (hnf : ¬(t0 = "private" ∧ 2 ≤ (s.adapter roomId).card)) :
    joinRoom s sid roomId u t = joinProceed s sid roomId u := by
  subst heq; simp [joinRoom, hA, hnf]

theorem inv_proceed (s : SState) (sid : Sid) (roomId u : String) (h : Inv s)
    (hsome : s.activeRooms roomId ≠ none)
    (hp : s.activeRooms roomId = some "private" → (s.adapter roomId).card ≤ 1) :
    Inv (joinProceed s sid roomId u).1 := by
  obtain ⟨h3, h4, h5⟩ := h
  refine ⟨?_, ?_, ?_⟩
  · intro x hx
    rw [joinProceed_active] at hx
    rw [joinProceed_adapter]
    by_cases hxr : x = roomId
    · exact absurd (hxr ▸ hx) hsome
    · rw [if_neg hxr]; exact h3 x hx
  · intro x hx
    rw [joinProceed_active] at hx
    rw [joinProceed_adapter]
    by_cases hxr : x = roomId
    · subst hxr
      rw [if_pos rfl]
      have := hp hx
      calc (insert sid (s.adapter x)).card ≤ (s.adapter x).card + 1 :=
            Finset.card_insert_le _ _
        _ ≤ 2 := by omega
    · rw [if_neg hxr]; exact h4 x hx
  · intro c x hx
    have hsub : ∀ y, c ∈ s.adapter y → c ∈ (joinProceed s sid roomId u).1.adapter y := by
      intro y hy
      rw [joinProceed_adapter]
      by_cases hyr : y = roomId
      · rw [if_pos hyr]; exact Finset.mem_insert_of_mem hy
      · rw [if_neg hyr]; exact hy
    rw [joinProceed_roomsOf] at hx
    by_cases hc : c = sid
    · subst hc
      rw [if_pos rfl] at hx
      by_cases hmem : roomId ∈ s.roomsOf c
      · rw [if_pos hmem] at hx
        exact hsub x (h5 c x hx)
      · rw [if_neg hmem] at hx
        rcases List.mem_append.mp hx with hl | hr
        · exact hsub x (h5 c x hl)
        · have hxr : x = roomId := by simpa using hr
          subst hxr
          rw [joinProceed_adapter, if_pos rfl]
          exact Finset.mem_insert_self _ _
    · rw [if_neg hc] at hx
      exact hsub x (h5 c x hx)

theorem inv_join (s : SState) (sid : Sid) (roomId u t : String) (h : Inv s) :
    Inv (joinRoom s sid roomId u t).1 := by
  cases hA : s.activeRooms roomId with
  | none =>
    rw [joinRoom_none s sid roomId u t hA]
    obtain ⟨h3, h4, h5⟩ := h
    have hsub : s.adapter roomId ⊆ {roomId} := h3 roomId hA
    have hcard : (s.adapter roomId).card ≤ 1 := by
      calc (s.adapter roomId).card ≤ ({roomId} : Finset String).card :=
            Finset.card_le_card hsub
        _ = 1 := Finset.card_singleton _
    apply inv_proceed _ sid roomId u ?_ ?_ ?_
    · refine ⟨?_, ?_, h5⟩
      · intro x hx
        by_cases hxr : x = roomId
        · exact absurd hx (by simp [hxr])
        · have : s.activeRooms x = none := by simpa [hxr] using hx
          exact h3 x this
      · intro x hx
        by_cases hxr : x = roomId
        · rw [hxr]
          show (s.adapter roomId).card ≤ 2
          omega
        · exact h4 x (by simpa [hxr] using hx)
    · simp
    · intro _; exact hcard
  | some t0 =>
    by_cases h1 : t0 = t
    · by_cases h2 : t0 = "private" ∧ 2 ≤ (s.adapter roomId).card
      · subst h1
        obtain ⟨hpriv, hcard⟩ := h2
        subst hpriv
        rw [joinRoom_fullCase s sid roomId u "private" hA rfl hcard]
        exact h
      · rw [joinRoom_proceed s sid roomId u t t0 hA h1 h2]
        apply inv_proceed s sid roomId u h (by simp [hA]) ?_
        intro hx
        rw [hA] at hx
        have ht0 : t0 = "private" := by injection hx
        have : ¬2 ≤ (s.adapter roomId).card := fun hc => h2 ⟨ht0, hc⟩
        omega
    · rw [joinRoom_mismatch s sid roomId u t t0 hA h1]
      exact h

theorem inv_connect (s : SState) (sid : Sid) (hf : freshFor s sid) (h : Inv s) :
    Inv (connect s sid) := by
  obtain ⟨hc, had, hro, hac, hun⟩ := hf
  obtain ⟨h3, h4, h5⟩ := h
  refine ⟨?_, ?_, ?_⟩
  · intro x hx
    rw [connect_activeRooms] at hx
    rw [connect_adapter]
    by_cases hxs : x = sid
    · subst hxs
      rw [if_pos rfl, had]
      simp
    · rw [if_neg hxs]; exact h3 x hx
  · intro x hx
    rw [connect_activeRooms] at hx
    rw [connect_adapter]
    by_cases hxs : x = sid
    · subst hxs; rw [hac] at hx; cases hx
    · rw [if_neg hxs]; exact h4 x hx
  · intro c x hx
    rw [connect_roomsOf] at hx
    rw [connect_adapter]
    by_cases hcs : c = sid
    · subst hcs
      rw [if_pos rfl, hro] at hx
      have hxc : x = c := by simpa using hx
      subst hxc
      rw [if_pos rfl]
      exact Finset.mem_insert_self _ _
    · rw [if_neg hcs] at hx
      by_cases hxs : x = sid
      · rw [if_pos hxs]; exact Finset.mem_insert_of_mem (h5 c x hx)
      · rw [if_neg hxs]; exact h5 c x hx

theorem inv_disconnect (s : SState) (sid : Sid) (h : Inv s) :
    Inv (disconnect s sid).1 := by
  obtain ⟨h3, h4, h5⟩ := h
  refine ⟨?_, ?_, ?_⟩
  · intro x hx
    rw [disconnect_active] at hx
    rw [disconnect_adapter]
    by_cases hcond : x ∈ s.roomsOf sid ∧ x ≠ sid ∧ (s.adapter x).card = 1
    · obtain ⟨hmem, _, hcard⟩ := hcond
      have hsid : sid ∈ s.adapter x := h5 sid x hmem
      obtain ⟨a, ha⟩ := Finset.card_eq_one.mp hcard
      rw [ha] at hsid ⊢
      have has : a = sid := (Finset.mem_singleton.mp hsid).symm
      subst has
      rw [Finset.erase_singleton]
      exact Finset.empty_subset _
    · rw [if_neg hcond] at hx
      exact (Finset.erase_subset _ _).trans (h3 x hx)
  · intro x hx
    rw [disconnect_active] at hx
    rw [disconnect_adapter]
    by_cases hcond : x ∈ s.roomsOf sid ∧ x ≠ sid ∧ (s.adapter x).card = 1
    · rw [if_pos hcond] at hx; cases hx
    · rw [if_neg hcond] at hx
      exact le_trans (Finset.card_le_card (Finset.erase_subset _ _)) (h4 x hx)
  · intro c x hx
    rw [disconnect_roomsOf] at hx
    rw [disconnect_adapter]
    by_cases hc : c = sid
    · rw [if_pos hc] at hx; cases hx
    · rw [if_neg hc] at hx
      exact Finset.mem_erase.mpr ⟨hc, h5 c x hx⟩

theorem applyEv_inv {s s1 : SState} {e : Ev} (h : applyEv s e = some s1)
    (hi : Inv s) : Inv s1 := by
  cases e with
  | conn sid =>
    simp only [applyEv] at h
    split_ifs at h with hc
    injection h with h
    exact h ▸ inv_connect s sid hc hi
  | join sid roomId u t =>
    simp only [applyEv] at h
    split_ifs at h with hc
    injection h with h
    exact h ▸ inv_join s sid roomId u t hi
  | chat sid roomId m mid =>
    simp only [applyEv] at h
    split_ifs at h with hc
    injection h with h
    exact h ▸ hi
  | seen sid roomId mid =>
    simp only [applyEv] at h
    split_ifs at h with hc
    injection h with h
    exact h ▸ hi
  | typing sid roomId b =>
    simp only [applyEv] at h
    split_ifs at h with hc
    injection h with h
    exact h ▸ hi
  | disc sid =>
    simp only [applyEv] at h
    split_ifs at h with hc
    injection h with h
    exact h ▸ inv_disconnect s sid hi

theorem inv_init : Inv init := by
  refine ⟨?_, ?_, ?_⟩
  · intro r _; exact Finset.empty_subset _
  · intro r hr; cases hr
  · intro c r hr; cases hr

theorem runEvs_inv (evs : List Ev) (s s1 : SState) (hi : Inv s)
    (h : runEvs s evs = some s1) : Inv s1 := by
  induction evs generalizing s with
  | nil =>
    unfold runEvs at h
    injection h with h
    exact h ▸ hi
  | cons e evs ih =>
    unfold runEvs at h
    cases hA : applyEv s e with
    | none => rw [hA] at h; cases h
    | some s2 =>
      rw [hA] at h
      exact ih s2 (applyEv_inv hA hi) h

/-- C1: for a sequence of joins to a fresh room id, the first join registers
the room with the requested kind (and succeeds, receiving `join-success`);
any join request against a room whose registered kind differs from the
requested kind is answered with a `room-type-mismatch` rejection carrying the
existing and attempted kinds, sent to the requester alone, and leaves the
entire state — membership and registered kind included — unchanged. -/
theorem claim_C1_kind_fixed_at_creation (s : SState) (sid : Sid) (roomId u t : String) :
    (s.activeRooms roomId = none →
      (joinRoom s sid roomId u t).1.activeRooms roomId = some t ∧
      (⟨({sid} : Finset Sid), Payload.joinSuccess roomId⟩ : Emit) ∈
        (joinRoom s sid roomId u t).2) ∧
    (∀ t0, s.activeRooms roomId = some t0 → t0 ≠ t →
      joinRoom s sid roomId u t = (s, [⟨{sid}, Payload.roomTypeMismatch t0 t⟩])) := by
  constructor
  · intro hA
    rw [joinRoom_none s sid roomId u t hA]
    constructor
    · rw [joinProceed_active]
      simp
    · rw [joinProceed_emits]
      simp
  · intro t0 hA hne
    exact joinRoom_mismatch s sid roomId u t t0 hA hne

/-- Witness for C1 at concrete inputs: a fresh room gets kind `group`; a
`private` join against the `group` room `"r"` is rejected unchanged. -/
theorem claim_C1_witness :
    ((joinRoom init "a" "r" "alice" "group").1.activeRooms "r" = some "group" ∧
      (⟨({"a"} : Finset Sid), Payload.joinSuccess "r"⟩ : Emit) ∈
        (joinRoom init "a" "r" "alice" "group").2) ∧
    joinRoom stGroup "b" "r" "bob" "private" =
      (stGroup, [⟨{"b"}, Payload.roomTypeMismatch "group" "private"⟩]) :=
  ⟨(claim_C1_kind_fixed_at_creation init "a" "r" "alice" "group").1 (by decide),
   (claim_C1_kind_fixed_at_creation stGroup "b" "r" "bob" "private").2 "group"
     (by decide) (by decide)⟩

/-- C2: in every reachable state a room registered `private` has at most two
members, and a matching-kind join against a private room that already has two
members is answered with `room-full` to the requester alone with the state
unchanged. -/
theorem claim_C2_private_capacity :
    (∀ (evs : List Ev) (s : SState), runEvs init evs = some s →
      ∀ r, s.activeRooms r = some "private" → (s.adapter r).card ≤ 2) ∧
    (∀ (s : SState) (sid : Sid) (r u : String),
      s.activeRooms r = some "private" → (s.adapter r).card = 2 →
      joinRoom s sid r u "private" = (s, [⟨{sid}, Payload.roomFull⟩])) := by
  constructor
  · intro evs s h r hr
    exact (runEvs_inv evs init s inv_init h).2.1 r hr
  · intro s sid r u hr hcard
    exact joinRoom_fullCase s sid r u "private" hr rfl (by omega)

/-- Witness for C2: a concrete two-join trace keeps the private room at
capacity at most 2, and a third matching join into a full private room is
rejected. -/
theorem claim_C2_witness :
    (((runEvs init evsC2).getD init).adapter "r1").card ≤ 2 ∧
    joinRoom stPriv2 "c" "r" "carol" "private" =
      (stPriv2, [⟨{"c"}, Payload.roomFull⟩]) :=
  ⟨claim_C2_private_capacity.1 evsC2 ((runEvs init evsC2).getD init) rfl "r1" (by decide),
   claim_C2_private_capacity.2 stPriv2 "c" "r" "carol" (by decide) (by decide)⟩

/-- C3 (refuted by the code): after the trace connect `"a"`; join-room with
`roomId` equal to the connection's own socket id `"a"`; disconnect `"a"`, the
run is accepted, yet the final state keeps `"a"` registered in the Room
Directory (kind `group`) while the room — and indeed the whole server — has
no members left: the `disconnecting` loop skips `room === socket.id`, so the
1-to-0 membership transition of this room unregisters nothing. -/
theorem claim_C3_zero_member_room_persists :
    (runEvs init leakTrace).isSome = true ∧
    ((runEvs init leakTrace).getD init).activeRooms "a" = some "group" ∧
    ((runEvs init leakTrace).getD init).adapter "a" = ∅ ∧
    ((runEvs init leakTrace).getD init).connected = ∅ := by
  decide

/-- C4: a successful join emits exactly a `user-joined` event carrying the
joiner's name to the pre-join members minus the joiner, and a `join-success`
carrying the room id to the joiner alone; the joiner is not among the
`user-joined` recipients. -/
theorem claim_C4_join_presence_routing (s : SState) (sid : Sid) (roomId u t : String)
    (h : joinOk s roomId t) :
    (joinRoom s sid roomId u t).2 =
      [⟨(s.adapter roomId).erase sid, Payload.userJoined u⟩,
       ⟨{sid}, Payload.joinSuccess roomId⟩] ∧
    sid ∉ (s.adapter roomId).erase sid := by
  constructor
  · rcases h with hA | ⟨hA, hnf⟩
    · rw [joinRoom_none s sid roomId u t hA, joinProceed_emits]
    · rw [joinRoom_proceed s sid roomId u t t hA rfl hnf, joinProceed_emits]
  · exact Finset.not_mem_erase _ _

/-- Witness for C4: `"b"` joins the group room `"r"` already holding
`"a"`; the presence event goes to `{"a"}` and not to `"b"`. -/
theorem claim_C4_witness :
    (joinRoom stGroup "b" "r" "bob" "group").2 =
      [⟨(stGroup.adapter "r").erase "b", Payload.userJoined "bob"⟩,
       ⟨{"b"}, Payload.joinSuccess "r"⟩] ∧
    "b" ∉ (stGroup.adapter "r").erase "b" :=
  claim_C4_join_presence_routing stGroup "b" "r" "bob" "group" (by decide)

/-- C5: a `chat-message` is relayed exactly to the room minus the sender
(never back to the sender), and a `message-seen` produces a `read-receipt` to
the room minus the acknowledger whose payload carries only the message id —
it is identical whichever connection acknowledges. -/
theorem claim_C5_chat_and_receipt_routing (s : SState) (sid sid2 : Sid)
    (roomId m mid : String) :
    (chatMessage s sid roomId m mid).2 =
      [⟨(s.adapter roomId).erase sid,
        Payload.chatMessage m mid sid (s.username sid)⟩] ∧
    sid ∉ (s.adapter roomId).erase sid ∧
    (messageSeen s sid roomId mid).2 =
      [⟨(s.adapter roomId).erase sid, Payload.readReceipt mid⟩] ∧
    (messageSeen s sid roomId mid).2.map Emit.payload =
      (messageSeen s sid2 roomId mid).2.map Emit.payload :=
  ⟨rfl, Finset.not_mem_erase _ _, rfl, rfl⟩

/-- C6: on disconnect, every room of the leaver except the pseudo-room named
by its own socket id gets a `user-left` event, addressed to the pre-leave
members minus the leaver (the broadcast audience is computed before any
cleanup); a 2-member room notifies the surviving member and keeps its
Directory entry, while a room whose sole member leaves gets an empty-audience
event and is unregistered from the Directory. -/
theorem claim_C6_disconnect_presence (s : SState) (sid : Sid) :
    (disconnect s sid).2 = (s.roomsOf sid).filterMap (fun room =>
      if room ≠ sid then
        some ⟨(s.adapter room).erase sid, Payload.userLeft (s.username sid)⟩
      else none) ∧
    (∀ r other, r ∈ s.roomsOf sid → r ≠ sid → s.adapter r = {sid, other} →
      sid ≠ other →
      (⟨({other} : Finset Sid), Payload.userLeft (s.username sid)⟩ : Emit) ∈
        (disconnect s sid).2 ∧
      (disconnect s sid).1.activeRooms r = s.activeRooms r) ∧
    (∀ r, r ∈ s.roomsOf sid → r ≠ sid → s.adapter r = {sid} →
      (⟨(∅ : Finset Sid), Payload.userLeft (s.username sid)⟩ : Emit) ∈
        (disconnect s sid).2 ∧
      (disconnect s sid).1.activeRooms r = none) := by
  refine ⟨disconnect_emits s sid, ?_, ?_⟩
  · intro r other hmem hne hA hso
    constructor
    · rw [disconnect_emits]
      apply List.mem_filterMap.mpr
      refine ⟨r, hmem, ?_⟩
      rw [if_pos hne, hA, Finset.erase_insert_eq_erase,
        Finset.erase_eq_of_not_mem (Finset.not_mem_singleton.mpr hso)]
    · rw [disconnect_active, if_neg]
      rintro ⟨_, _, hcard⟩
      rw [hA, Finset.card_insert_of_not_mem (Finset.not_mem_singleton.mpr hso),
        Finset.card_singleton] at hcard
      omega
  · intro r hmem hne hA
    constructor
    · rw [disconnect_emits]
      apply List.mem_filterMap.mpr
      refine ⟨r, hmem, ?_⟩
      rw [if_pos hne, hA, Finset.erase_singleton]
    · rw [disconnect_active,
        if_pos ⟨hmem, hne, by rw [hA]; exact Finset.card_singleton sid⟩]

/-- Witness for C6: `"a"` disconnects from `stC6`; the survivor `"b"` of
`"room1"` is notified and `"room1"` stays registered, while the sole-member
room `"solo"` gets an empty-audience event and is unregistered. -/
theorem claim_C6_witness :
    ((⟨({"b"} : Finset Sid), Payload.userLeft (stC6.username "a")⟩ : Emit) ∈
        (disconnect stC6 "a").2 ∧
      (disconnect stC6 "a").1.activeRooms "room1" = stC6.activeRooms "room1") ∧
    ((⟨(∅ : Finset Sid), Payload.userLeft (stC6.username "a")⟩ : Emit) ∈
        (disconnect stC6 "a").2 ∧
      (disconnect stC6 "a").1.activeRooms "solo" = none) :=
  ⟨(claim_C6_disconnect_presence stC6 "a").2.1 "room1" "b"
      (by decide) (by decide) (by decide) (by decide),
   (claim_C6_disconnect_presence stC6 "a").2.2 "solo"
      (by decide) (by decide) (by decide)⟩

/-- C7: every rejected join — kind mismatch, full private room, and (in the
strict variant) unknown room — answers the requesting connection alone and
returns the state untouched: Room Directory, memberships and the requester's
display name are all unchanged. -/
theorem claim_C7_rejections_pure (s : SState) (sid : Sid) (roomId u t : String) :
    (∀ t0, s.activeRooms roomId = some t0 → t0 ≠ t →
      joinRoom s sid roomId u t = (s, [⟨{sid}, Payload.roomTypeMismatch t0 t⟩])) ∧
    (s.activeRooms roomId = some "private" → 2 ≤ (s.adapter roomId).card →
      joinRoom s sid roomId u "private" = (s, [⟨{sid}, Payload.roomFull⟩])) ∧
    (s.activeRooms roomId = none →
      joinRoomStrict s sid roomId u = (s, [⟨{sid}, Payload.roomNotFound⟩])) := by
  refine ⟨fun t0 hA hne => joinRoom_mismatch s sid roomId u t t0 hA hne, ?_, ?_⟩
  · intro hA hcard
    exact joinRoom_fullCase s sid roomId u "private" hA rfl hcard
  · intro hA
    unfold joinRoomStrict
    rw [hA]

/-- Witness for C7 at concrete inputs: mismatch against `stGroup`, full
private room against `stPriv2`, and unknown room in the strict variant. -/
theorem claim_C7_witness :
    joinRoom stGroup "c" "r" "carol" "private" =
      (stGroup, [⟨{"c"}, Payload.roomTypeMismatch "group" "private"⟩]) ∧
    joinRoom stPriv2 "d" "r" "dave" "private" =
      (stPriv2, [⟨{"d"}, Payload.roomFull⟩]) ∧
    joinRoomStrict init "a" "nowhere" "alice" =
      (init, [⟨{"a"}, Payload.roomNotFound⟩]) :=
  ⟨(claim_C7_rejections_pure stGroup "c" "r" "carol" "private").1 "group"
      (by decide) (by decide),
   (claim_C7_rejections_pure stPriv2 "d" "r" "dave" "private").2.1
      (by decide) (by decide),
   (claim_C7_rejections_pure init "a" "nowhere" "alice" "group").2.2 (by decide)⟩

/-- C8: an upload notification that supplies a room id emits exactly one
`file-shared` event to the whole room, carrying the blob descriptor, the
originating connection id, and a sender name that is the originating
connection's current display name when it is still connected and the
placeholder `"A user"` when it is not. -/
theorem claim_C8_file_shared (s : SState) (fd : FileData) (rid : String)
    (senderId : Sid) (tid : Option String) :
    (senderId ∈ s.connected →
      uploadNotify s fd (some rid) senderId tid =
        [⟨s.adapter rid,
          Payload.fileShared fd.filename fd.originalname fd.mimetype fd.size fd.path
            senderId (s.username senderId) tid⟩]) ∧
    (senderId ∉ s.connected →
      uploadNotify s fd (some rid) senderId tid =
        [⟨s.adapter rid,
          Payload.fileShared fd.filename fd.originalname fd.mimetype fd.size fd.path
            senderId (some "A user") tid⟩]) := by
  constructor <;> intro h <;> simp [uploadNotify, h]

/-- Witness for C8: the connected sender `"a"` is attributed by display name,
the absent sender `"z"` by the placeholder. -/
theorem claim_C8_witness :
    uploadNotify stGroup fdEx (some "r") "a" (some "t1") =
      [⟨stGroup.adapter "r",
        Payload.fileShared fdEx.filename fdEx.originalname fdEx.mimetype fdEx.size
          fdEx.path "a" (stGroup.username "a") (some "t1")⟩] ∧
    uploadNotify stGroup fdEx (some "r") "z" none =
      [⟨stGroup.adapter "r",
        Payload.fileShared fdEx.filename fdEx.originalname fdEx.mimetype fdEx.size
          fdEx.path "z" (some "A user") none⟩] :=
  ⟨(claim_C8_file_shared stGroup fdEx "r" "a" (some "t1")).1 (by decide),
   (claim_C8_file_shared stGroup fdEx "r" "z" none).2 (by decide)⟩

/-- C9: the chat, typing and read-receipt handlers perform no membership or
room-existence check — for every state, sender and room id (the sender need
not be a member, the room need not be registered) the event is relayed to
whatever connections are currently members of that room id, and the state is
untouched. -/
theorem claim_C9_no_membership_check (s : SState) (sid : Sid)
    (roomId m mid : String) (b : Bool) :
    chatMessage s sid roomId m mid =
      (s, [⟨(s.adapter roomId).erase sid,
            Payload.chatMessage m mid sid (s.username sid)⟩]) ∧
    onTyping s sid roomId b =
      (s, [⟨(s.adapter roomId).erase sid, Payload.typing (s.username sid) b⟩]) ∧
    messageSeen s sid roomId mid =
      (s, [⟨(s.adapter roomId).erase sid, Payload.readReceipt mid⟩]) :=
  ⟨rfl, rfl, rfl⟩

/-- C10: the private-room capacity check counts the requester itself — a
matching-kind re-join by a connection that is already one of the two members
of a full private room is rejected with `room-full`, not treated as an
idempotent success. -/
theorem claim_C10_rejoin_full_private (s : SState) (sid : Sid) (r u : String)
    (h1 : s.activeRooms r = some "private") (hmem : sid ∈ s.adapter r)
    (h3 : (s.adapter r).card = 2) :
    joinRoom s sid r u "private" = (s, [⟨{sid}, Payload.roomFull⟩]) := by
  clear hmem
  exact joinRoom_fullCase s sid r u "private" h1 rfl (by omega)

/-- Witness for C10: member `"a"` of the full private room `"r"` re-joins
with matching kind and is rejected. -/
theorem claim_C10_witness :
    joinRoom stPriv2 "a" "r" "alice" "private" =
      (stPriv2, [⟨{"a"}, Payload.roomFull⟩]) :=
  claim_C10_rejoin_full_private stPriv2 "a" "r" "alice"
    (by decide) (by decide) (by decide)

end BackendChat
